import Mathlib

/-!
Verification of the numeric field controller of the BabylonJS editor inspector
(`src/components/Editor/inspector/fields/InspectorNumber.tsx`).

JavaScript numbers are modelled as exact decimal rationals `m / 10 ^ e`
together with the special values `NaN` and `undefined`/`null` (merged, since
the controller only distinguishes them through `??`).  IEEE-754 rounding is
idealized away; `Number.prototype.toString`, `Number.prototype.toFixed`,
`Math.round` and `parseFloat` are modelled by their exact-decimal semantics
(ECMAScript exponential-notation thresholds included; `Infinity` and hex
literals are outside the model, no claim depends on them).
-/

/-- Model of a JavaScript value held in a numeric property: `undefined`/`null`,
`NaN`, or the exact decimal number `m / 10 ^ e`. -/
inductive JSVal where
  | undef : JSVal
  | nan : JSVal
  | num : ℤ → ℕ → JSVal
deriving DecidableEq

/-- Rational value of a `JSVal` (junk `0` on `NaN`/`undefined`, which every
use guards against). -/
def JSVal.q : JSVal → ℚ
  | .num m e => (m : ℚ) / 10 ^ e
  | _ => 0

/-- JavaScript `typeof v === "number"` (`NaN` is a number). -/
def JSVal.isNumber : JSVal → Bool
  | .num _ _ => true
  | .nan => true
  | .undef => false

/-- JavaScript strict equality `===` on the modelled values: `NaN` is not
equal to anything, numbers compare by value (cross-multiplied form of
`m1 / 10 ^ e1 = m2 / 10 ^ e2`). -/
def jsEq : JSVal → JSVal → Bool
  | .undef, .undef => true
  | .num m1 e1, .num m2 e2 => decide (m1 * 10 ^ e2 = m2 * 10 ^ e1)
  | _, _ => false

/-- JavaScript `<` on the modelled values: any comparison involving `NaN` or
`undefined` is false. -/
def jsLt : JSVal → JSVal → Bool
  | .num m1 e1, .num m2 e2 => decide (m1 * 10 ^ e2 < m2 * 10 ^ e1)
  | _, _ => false

/-- JavaScript `>`. -/
def jsGt (a b : JSVal) : Bool := jsLt b a

/-- JavaScript `+` on numbers (`NaN`/`undefined` propagate to `NaN`). -/
def jsAdd : JSVal → JSVal → JSVal
  | .num m1 e1, .num m2 e2 => .num (m1 * 10 ^ e2 + m2 * 10 ^ e1) (e1 + e2)
  | _, _ => .nan

/-- JavaScript `-` on numbers. -/
def jsSub : JSVal → JSVal → JSVal
  | .num m1 e1, .num m2 e2 => .num (m1 * 10 ^ e2 - m2 * 10 ^ e1) (e1 + e2)
  | _, _ => .nan

/-- JavaScript `*` on numbers. -/
def jsMul : JSVal → JSVal → JSVal
  | .num m1 e1, .num m2 e2 => .num (m1 * m2) (e1 + e2)
  | _, _ => .nan

/-- Division by `10 ^ d` (the only division the controller performs). -/
def jsDivPow10 : JSVal → ℕ → JSVal
  | .num m e, d => .num m (e + d)
  | _, _ => .nan

/-- JavaScript truthiness of a numeric prop: `undefined`, `NaN`, `0` are
falsy. -/
def jsTruthy : JSVal → Bool
  | .num m _ => decide (m ≠ 0)
  | _ => false

/-- Remove factors of ten shared between mantissa and exponent, so that the
decimal rendering carries no trailing fraction zeros. -/
def stripTenFactors : ℤ → ℕ → ℤ × ℕ
  | m, 0 => (m, 0)
  | m, e + 1 => if m % 10 = 0 then stripTenFactors (m / 10) e else (m, e + 1)

/-- Drop trailing `0` characters of a digit string. -/
def dropTrailingZeroChars (s : String) : String :=
  String.mk ((s.toList.reverse.dropWhile (fun c => c = '0')).reverse)

/-- `Number.prototype.toString` on the modelled values: shortest exact decimal
rendering, switching to exponential notation for magnitudes at least `1e21`
or below `1e-6`, exactly as ECMAScript does. -/
def jsToString : JSVal → String
  | .undef => "undefined"
  | .nan => "NaN"
  | .num m0 e0 =>
    let p := stripTenFactors m0 e0
    let m := p.1
    let e := p.2
    if m = 0 then "0"
    else
      let sign := if m < 0 then "-" else ""
      let ds := Nat.repr m.natAbs
      let k := ds.length
      let ex : ℤ := (k : ℤ) - 1 - (e : ℤ)
      if 21 ≤ ex ∨ ex ≤ -7 then
        let md := dropTrailingZeroChars ds
        let mant := if md.length = 1 then md else md.take 1 ++ "." ++ md.drop 1
        sign ++ mant ++ "e" ++ (if 0 ≤ ex then "+" else "-") ++ Nat.repr ex.natAbs
      else if e = 0 then sign ++ ds
      else if e < k then sign ++ ds.take (k - e) ++ "." ++ ds.drop (k - e)
      else sign ++ "0." ++ String.mk (List.replicate (e - k) '0') ++ ds

/-- `Number.prototype.toFixed` on the modelled values: round half away from
zero to `f` fraction digits and pad with zeros (falling back to `toString`
for magnitudes of `1e21` and above, as ECMAScript does). -/
def jsToFixed (v : JSVal) (f : ℕ) : String :=
  match v with
  | .undef => "undefined"
  | .nan => "NaN"
  | .num m e =>
    if 10 ^ (21 + e) ≤ m.natAbs then jsToString (.num m e)
    else
      let sign := if m < 0 then "-" else ""
      let t := m.natAbs * 10 ^ f
      let n := (2 * t + 10 ^ e) / (2 * 10 ^ e)
      let s := Nat.repr n
      if f = 0 then sign ++ s
      else
        let s' := if s.length ≤ f then String.mk (List.replicate (f + 1 - s.length) '0') ++ s else s
        sign ++ s'.take (s'.length - f) ++ "." ++ s'.drop (s'.length - f)

/-- `Math.round`: round half toward positive infinity. -/
def jsMathRound : JSVal → JSVal
  | .num m e => .num (Int.fdiv (2 * m + 10 ^ e) (2 * 10 ^ e)) 0
  | _ => .nan

/-- Accumulating decimal-digit scanner used by the `parseFloat` model:
returns the value read, the number of digits consumed, and the rest. -/
def takeDigitsAux (acc : ℕ) (n : ℕ) : List Char → ℕ × ℕ × List Char
  | [] => (acc, n, [])
  | c :: cs =>
    if c.isDigit then takeDigitsAux (acc * 10 + (c.toNat - 48)) (n + 1) cs
    else (acc, n, c :: cs)

/-- ECMAScript `parseFloat`: longest valid decimal-literal prefix (optional
sign, digits, fraction, exponent); `NaN` when no digit can be read. -/
def jsParseFloat (s : String) : JSVal :=
  let cs := s.toList.dropWhile (fun c => c = ' ' ∨ c = '\t' ∨ c = '\n' ∨ c = '\r')
  let sg : Bool × List Char :=
    match cs with
    | '-' :: r => (true, r)
    | '+' :: r => (false, r)
    | _ => (false, cs)
  let ipart := takeDigitsAux 0 0 sg.2
  let fpart : ℕ × ℕ × List Char :=
    match ipart.2.2 with
    | '.' :: r => takeDigitsAux 0 0 r
    | _ => (0, 0, ipart.2.2)
  if ipart.2.1 + fpart.2.1 = 0 then .nan
  else
    let m0 : ℤ := (ipart.1 * 10 ^ fpart.2.1 + fpart.1 : ℕ)
    let m1 : ℤ := if sg.1 then -m0 else m0
    let ep : ℤ × Bool :=
      match fpart.2.2 with
      | 'e' :: r | 'E' :: r =>
        let es : Bool × List Char :=
          match r with
          | '-' :: r2 => (true, r2)
          | '+' :: r2 => (false, r2)
          | _ => (false, r)
        let dd := takeDigitsAux 0 0 es.2
        if dd.2.1 = 0 then (0, false)
        else ((if es.1 then -(dd.1 : ℤ) else (dd.1 : ℤ)), true)
      | _ => (0, false)
    if ep.2 then
      if 0 ≤ ep.1 then .num (m1 * 10 ^ ep.1.natAbs) fpart.2.1
      else .num m1 (fpart.2.1 + ep.1.natAbs)
    else .num m1 fpart.2.1

/-! The `InspectorNumber` component, translated from
`src/components/Editor/inspector/fields/InspectorNumber.tsx`.  The bound
object is modelled through its single observed property (`prop` below) plus
an identity `objectId`; callbacks and notifier emissions are recorded as
events. -/

/-- Target of an `InspectorNotifier.NotifyChange` call: either the observed
object (by identity) or a primitive value that was passed instead. -/
inductive NTarget where
  | object : ℕ → NTarget
  | prim : JSVal → NTarget
deriving DecidableEq

/-- Observable effects of the controller: callback invocations, notifier
emissions, and document listener management. -/
inductive NEvent where
  | onChange : JSVal → NEvent
  | onFinishChange : JSVal → JSVal → NEvent
  | notify : NTarget → ℕ → NEvent
  | addMouseMove : NEvent
  | addMouseUp : NEvent
  | removeMouseMove : NEvent
  | removeMouseUp : NEvent
deriving DecidableEq

/-- The `IInspectorNumberProps` the claims depend on; `selfId` is the
identity of the component (the `this` used as notifier caller tag) and
`objectId` the identity of `props.object`; `hasOnChange` and
`hasOnFinishChange` record whether the optional callbacks are supplied. -/
structure NProps where
  selfId : ℕ
  objectId : ℕ
  step : Option JSVal
  min : Option JSVal
  max : Option JSVal
  defaultValue : Option JSVal
  hasOnChange : Bool
  hasOnFinishChange : Bool
deriving DecidableEq

/-- Mutable state of one `InspectorNumber` instance: the bound property
`object[property]`, the displayed string (`this.state.value`), and the
private fields of the class. -/
structure NState where
  prop : JSVal
  displayed : String
  initialValue : JSVal
  precision : ℕ
  impliedStep : JSVal
  isFocused : Bool
  lastMousePosition : JSVal
  mouseMoveListener : Bool
  mouseUpListener : Bool
deriving DecidableEq

/-- `String.prototype.indexOf "."` as used by `_NumDecimals`
(`none` models `-1`). -/
def indexOfChar (c : Char) : List Char → Option ℕ
  | [] => none
  | a :: l => if a = c then some 0 else (indexOfChar c l).map (fun n => n + 1)

/-- The body of `InspectorNumber._NumDecimals` applied to an already
rendered string: `valueString.length - dotIndex - 1` when a dot occurs,
`0` otherwise. -/
def numDecimalsOfString (s : String) : ℕ :=
  match indexOfChar '.' s.toList with
  | some i => s.length - i - 1
  | none => 0

namespace InspectorNumber

/-- `InspectorNumber._NumDecimals`. -/
def _NumDecimals (value : JSVal) : ℕ := numDecimalsOfString (jsToString value)

/-- `InspectorNumber._RoundToDecimal`:
`Math.round(value * 10 ^ decimals) / 10 ^ decimals`. -/
def _RoundToDecimal (value : JSVal) (decimals : ℕ) : JSVal :=
  jsDivPow10 (jsMathRound (jsMul value (.num (10 ^ decimals) 0))) decimals

/-- The min branch of the clamp in `_handleValueChanged`:
`if (this.props.min !== undefined && parsedValue < this.props.min)`. -/
def applyMin (min : Option JSVal) (v : JSVal) : JSVal :=
  match min with
  | some m => if jsLt v m then m else v
  | none => v

/-- The max branch of the clamp in `_handleValueChanged`:
`if (this.props.max !== undefined && parsedValue > this.props.max)`. -/
def applyMax (max : Option JSVal) (v : JSVal) : JSVal :=
  match max with
  | some m => if jsGt v m then m else v
  | none => v

/-- The two sequential reassignments of `parsedValue` in
`_handleValueChanged` (min first, then max). -/
def clampMinMax (p : NProps) (v : JSVal) : JSVal := applyMax p.max (applyMin p.min v)

/-- `InspectorNumber._getFinalValueString` (with the instance field
`this._precision` passed explicitly). -/
def _getFinalValueString (precision : ℕ) (value : JSVal) : String :=
  match value with
  | .undef => "0"
  | v => if precision < _NumDecimals v then jsToFixed v precision else jsToString v

/-- `InspectorNumber._handleValueChanged(value, fromMouseEvent)`: empty text
only updates the displayed string; otherwise the parsed (possibly `NaN`)
value is clamped, written to `object[property]`, displayed raw or rounded,
`onChange` fires, and a notifier change is emitted with
`this.props.object[this.props.property]` — the primitive value — as target
and `this` as caller. -/
def _handleValueChanged (p : NProps) (s : NState) (value : String) (fromMouseEvent : Bool) :
    NState × List NEvent :=
  if value = "" then ({ s with displayed := value }, [])
  else
    let parsedValue := clampMinMax p (jsParseFloat value)
    ({ s with
        prop := parsedValue
        displayed :=
          if fromMouseEvent then jsToString (_RoundToDecimal parsedValue s.precision)
          else value },
      (if p.hasOnChange then [NEvent.onChange parsedValue] else []) ++
        [NEvent.notify (NTarget.prim parsedValue) p.selfId])

/-- `InspectorNumber._handleSliderChanged(value)`. -/
def _handleSliderChanged (p : NProps) (s : NState) (value : JSVal) : NState × List NEvent :=
  _handleValueChanged p s (jsToString value) true

/-- `InspectorNumber._handleValueFinishChanged`: no-op when the current
property value strictly equals `this._initialValue`; otherwise fires
`onFinishChange(value, initial)`, notifies with the observed object as
target, updates the baseline, and refreshes the displayed string. -/
def _handleValueFinishChanged (p : NProps) (s : NState) : NState × List NEvent :=
  if jsEq s.prop s.initialValue then (s, [])
  else
    ({ s with
        initialValue := s.prop
        displayed := _getFinalValueString s.precision s.prop },
      (if p.hasOnFinishChange then [NEvent.onFinishChange s.prop s.initialValue] else []) ++
        [NEvent.notify (NTarget.object p.objectId) p.selfId])

/-- `InspectorNumber._handleInputFocused`. -/
def _handleInputFocused (s : NState) : NState := { s with isFocused := true }

/-- `InspectorNumber._handleInputBlurred`. -/
def _handleInputBlurred (p : NProps) (s : NState) : NState × List NEvent :=
  _handleValueFinishChanged p { s with isFocused := false }

/-- `InspectorNumber._handleEnterKeyPressed`: `this._input?.blur()`
dispatches the blur handler synchronously (the keydown target is the mounted,
focused input), then the finish handler is called once more explicitly. -/
def _handleEnterKeyPressed (p : NProps) (s : NState) : NState × List NEvent :=
  let r1 := _handleInputBlurred p s
  let r2 := _handleValueFinishChanged p r1.1
  (r2.1, r1.2 ++ r2.2)

/-- `InspectorNumber._handleInputClicked(ev)`: arms the drag gesture only
while focused, recording the anchor position and attaching the document
listeners. -/
def _handleInputClicked (s : NState) (pageY : JSVal) : NState × List NEvent :=
  if s.isFocused then
    ({ s with lastMousePosition := pageY, mouseMoveListener := true, mouseUpListener := true },
      [NEvent.addMouseMove, NEvent.addMouseUp])
  else (s, [])

/-- The `mousemove` listener attached by `_handleInputClicked`:
`newValue = object[property] + (lastMousePosition - pageY) * impliedStep`,
fed through the gesture branch of `_handleValueChanged`, then the anchor is
updated to the current position. -/
def _dragMouseMove (p : NProps) (s : NState) (pageY : JSVal) : NState × List NEvent :=
  let newValue := jsAdd s.prop (jsMul (jsSub s.lastMousePosition pageY) s.impliedStep)
  let r := _handleValueChanged p s (jsToString newValue) true
  ({ r.1 with lastMousePosition := pageY }, r.2)

/-- The listener removals performed by `_handleMouseUp`, each guarded by the
presence of the stored listener reference. -/
def removalEvents (s : NState) : List NEvent :=
  (if s.mouseMoveListener then [NEvent.removeMouseMove] else []) ++
    (if s.mouseUpListener then [NEvent.removeMouseUp] else [])

/-- `InspectorNumber._handleMouseUp`: guarded listener removal, null both
references, then run the finish-change step. -/
def _handleMouseUp (p : NProps) (s : NState) : NState × List NEvent :=
  let r := _handleValueFinishChanged p
    { s with mouseMoveListener := false, mouseUpListener := false }
  (r.1, removalEvents s ++ r.2)

/-- The `InspectorNotifier.Register` callback installed by
`componentDidMount`: re-read `object[property]` and refresh the displayed
string through `_getFinalValueString`. -/
def _notifierRefresh (s : NState) : NState :=
  { s with displayed := _getFinalValueString s.precision s.prop }

/-- Fuelled decimal digit counter (kernel-reducible, unlike well-founded
recursion). -/
def digitsLenAux : ℕ → ℕ → ℕ
  | 0, _ => 0
  | f + 1, n => if n < 10 then 1 else digitsLenAux f (n / 10) + 1

/-- Number of decimal digits of a natural number (`1` for `0`). -/
def digitsLen (n : ℕ) : ℕ := digitsLenAux (n + 1) n

/-- `Math.floor(Math.log(Math.abs(value)) / Math.LN10)` for a nonzero
decimal `m / 10 ^ e`, i.e. the floor of its base-ten logarithm
(`digitsLen a - 1` is the floor of `log10 a` for `a ≠ 0`). -/
def intLog10 (m : ℤ) (e : ℕ) : ℤ := ((digitsLen m.natAbs : ℤ) - 1) - e

/-- `Math.pow(10, k)` for an integer `k`. -/
def pow10Z (k : ℤ) : JSVal :=
  if 0 ≤ k then JSVal.num (10 ^ k.natAbs) 0 else JSVal.num 1 k.natAbs

/-- The computed implied step for the no-usable-step case:
`value === 0 ? 1 : Math.pow(10, Math.floor(Math.log(Math.abs(value)) /
Math.LN10)) / 10` (propagating `NaN`). -/
def impliedStepFromValue (value : JSVal) : JSVal :=
  if jsEq value (JSVal.num 0 0) then JSVal.num 1 0
  else
    match value with
    | .num m e => jsDivPow10 (pow10Z (intLog10 m e)) 1
    | _ => .nan

/-- The `InspectorNumber` constructor: default substitution, the non-number
construction error, `this._impliedStep` (explicit step only when truthy,
otherwise `value === 0 ? 1 : Math.pow(10, Math.floor(Math.log(Math.abs(value))
/ Math.LN10)) / 10`), `this._initialValue`, `this._precision`, and the
initial displayed string. -/
def construct (p : NProps) (objValue : JSVal) : Except String NState :=
  let value :=
    if ¬ objValue.isNumber ∧ (p.defaultValue.getD JSVal.undef).isNumber then
      p.defaultValue.getD JSVal.undef
    else objValue
  if value.isNumber then
    let impliedStep :=
      match p.step with
      | some st => if jsTruthy st then st else impliedStepFromValue value
      | none => impliedStepFromValue value
    let prec := _NumDecimals impliedStep
    Except.ok
      { prop := value
        displayed := _getFinalValueString prec value
        initialValue := value
        precision := prec
        impliedStep := impliedStep
        isFocused := false
        lastMousePosition := JSVal.num 0 0
        mouseMoveListener := false
        mouseUpListener := false }
  else Except.error "Only number are supported for InspectorNumber components."

end InspectorNumber

/-! The Change Notifier.  The source imports `InspectorNotifier` from
`../notifier`, which is not among the provided sources; its dispatch is
modelled from the spec. -/

/-- Modelled from the spec: a registration held by the Change Notifier — an
observer callback owned by a subscriber identity and keyed by the observed
target (spec section 4.1; the notifier implementation itself is not among
the provided sources). -/
structure Registration where
  subscriber : ℕ
  target : NTarget
deriving DecidableEq

/-- Modelled from the spec: target identity comparison used by the registry —
the Notifier is "keyed by observed object identity"; a primitive value
compares by JavaScript strict equality and never equals an object. -/
def targetMatches : NTarget → NTarget → Bool
  | .object a, .object b => decide (a = b)
  | .prim a, .prim b => jsEq a b
  | _, _ => false

/-- Modelled from the spec: the set of subscribers whose callbacks
`NotifyChange(target, caller)` invokes — "every callback registered for
`target` except the one owned by `options.caller`". -/
def notifyDelivers (regs : List Registration) (target : NTarget) (caller : ℕ) : List ℕ :=
  (regs.filter (fun r => targetMatches r.target target && r.subscriber != caller)).map
    Registration.subscriber

/-! Spec-side reformulations used for refinement-style claims. -/

/-- The display-string rule in the spec's words (spec section 4.2): null or
undefined displays `"0"`; a value whose own decimal-count exceeds the fixed
precision displays rounded to `precision` decimals; otherwise the exact
textual form. -/
def displayRuleSpec (precision : ℕ) (v : JSVal) : String :=
  if v = JSVal.undef then "0"
  else if precision < InspectorNumber._NumDecimals v then jsToFixed v precision
  else jsToString v

/-- Mathematical clamp, as the spec words it: `clamp(v, m, M)`. -/
def clampQ (v m M : ℚ) : ℚ := min (max v m) M

/-- Event filters used in the claim statements. -/
def isNotifyEvent : NEvent → Bool
  | .notify _ _ => true
  | _ => false

def isFinishEvent : NEvent → Bool
  | .onFinishChange _ _ => true
  | _ => false

def isOnChangeEvent : NEvent → Bool
  | .onChange _ => true
  | _ => false

def isRemovalEvent : NEvent → Bool
  | .removeMouseMove => true
  | .removeMouseUp => true
  | _ => false

/-! Helper lemmas shared by the claim theorems. -/

theorem jsEq_num_refl (m : ℤ) (e : ℕ) : jsEq (JSVal.num m e) (JSVal.num m e) = true := by
  simp [jsEq]

theorem jsEq_num_iff (m1 m2 : ℤ) (e1 e2 : ℕ) :
    jsEq (JSVal.num m1 e1) (JSVal.num m2 e2) = true ↔
      (m1 : ℚ) / 10 ^ e1 = (m2 : ℚ) / 10 ^ e2 := by
  have h1 : (0:ℚ) < 10 ^ e1 := by positivity
  have h2 : (0:ℚ) < 10 ^ e2 := by positivity
  rw [div_eq_div_iff (by positivity) (by positivity)]
  simp only [jsEq, decide_eq_true_eq]
  constructor
  · intro h
    exact_mod_cast congrArg (fun z : ℤ => (z : ℚ)) h
  · intro h
    exact_mod_cast h

theorem jsLt_num_iff (m1 m2 : ℤ) (e1 e2 : ℕ) :
    jsLt (JSVal.num m1 e1) (JSVal.num m2 e2) = true ↔
      (m1 : ℚ) / 10 ^ e1 < (m2 : ℚ) / 10 ^ e2 := by
  rw [div_lt_div_iff₀ (by positivity) (by positivity)]
  simp only [jsLt, decide_eq_true_eq]
  constructor
  · intro h
    exact_mod_cast h
  · intro h
    exact_mod_cast h

theorem jsParseFloat_empty : jsParseFloat "" = JSVal.nan := by decide

theorem parse_num_ne_empty {s : String} {m : ℤ} {e : ℕ}
    (h : jsParseFloat s = JSVal.num m e) : ¬ s = "" := by
  intro hs
  rw [hs, jsParseFloat_empty] at h
  cases h

namespace InspectorNumber

theorem finish_state_fields (p : NProps) (s : NState) :
    (_handleValueFinishChanged p s).1.prop = s.prop ∧
      (_handleValueFinishChanged p s).1.precision = s.precision ∧
      (_handleValueFinishChanged p s).1.mouseMoveListener = s.mouseMoveListener ∧
      (_handleValueFinishChanged p s).1.mouseUpListener = s.mouseUpListener := by
  unfold _handleValueFinishChanged
  split <;> exact ⟨rfl, rfl, rfl, rfl⟩

theorem finish_no_removals (p : NProps) (s : NState) :
    ((_handleValueFinishChanged p s).2.filter isRemovalEvent) = [] := by
  unfold _handleValueFinishChanged
  split
  · rfl
  · cases p.hasOnFinishChange <;> simp [isRemovalEvent]

theorem construct_ok_fields (p : NProps) (v : JSVal) (st : NState)
    (hc : construct p v = Except.ok st) :
    st.precision = _NumDecimals st.impliedStep ∧
      st.initialValue = st.prop ∧
      st.displayed = _getFinalValueString st.precision st.prop ∧
      st.impliedStep = (match p.step with
        | some stp => if jsTruthy stp then stp else impliedStepFromValue st.prop
        | none => impliedStepFromValue st.prop) := by
  simp only [construct] at hc
  split at hc <;> split at hc <;>
    first
      | (injection hc with h
         subst h
         exact ⟨rfl, rfl, rfl, rfl⟩)
      | cases hc

end InspectorNumber

namespace InspectorNumber

/-! Claim C1: the finish-change step of an edit transaction. -/

/-- C1 counterexample: the finish-change step can fire more than once in one
edit transaction.  Starting from a freshly constructed controller on value
`5`, focusing, typing `"-"` (which `parseFloat` turns into `NaN`, written to
the property), and pressing Enter runs the commit twice (blur plus the
explicit call); since `NaN === NaN` is false, *both* commits fire
`onFinishChange`, and updating the baseline does not make the repeated
commit a no-op. -/
theorem C1_counterexample :
    ((construct ⟨1, 0, none, none, none, none, true, true⟩ (JSVal.num 5 0)).toOption.map
      (fun s0 =>
        let p : NProps := ⟨1, 0, none, none, none, none, true, true⟩
        let r2 := _handleValueChanged p (_handleInputFocused s0) "-" false
        let r3 := _handleEnterKeyPressed p r2.1
        ((r3.2.filter isFinishEvent).length, jsEq r3.1.prop r3.1.initialValue))) =
      some (2, false) := by
  decide

/-- C1 amended: for a strict-equality comparison (`===`) of the committed
value against the baseline `_initialValue`: an equal value makes the commit a
complete no-op (no `onFinishChange`, no `NotifyChange`, state untouched); a
different value fires `onFinishChange(value, oldValue)` (when supplied),
emits one commit `NotifyChange`, and updates the baseline; and provided the
committed value is an actual number — not `NaN` — an immediately repeated
commit (in particular the second commit of the Enter key path) is a no-op,
so the finish step fires at most once. -/
theorem C1_finish_transaction (p : NProps) (s : NState) :
    (jsEq s.prop s.initialValue = true → _handleValueFinishChanged p s = (s, [])) ∧
    (jsEq s.prop s.initialValue = false →
      (_handleValueFinishChanged p s).2 =
        (if p.hasOnFinishChange then [NEvent.onFinishChange s.prop s.initialValue] else []) ++
          [NEvent.notify (NTarget.object p.objectId) p.selfId] ∧
      (_handleValueFinishChanged p s).1.initialValue = s.prop) ∧
    (∀ m : ℤ, ∀ e : ℕ, s.prop = JSVal.num m e →
      _handleValueFinishChanged p (_handleValueFinishChanged p s).1 =
        ((_handleValueFinishChanged p s).1, []) ∧
      ((_handleEnterKeyPressed p s).2.filter isFinishEvent).length ≤ 1) := by
  refine ⟨?_, ?_, ?_⟩
  · intro h
    simp [_handleValueFinishChanged, h]
  · intro h
    simp [_handleValueFinishChanged, h]
  · intro m e hprop
    constructor
    · cases h : jsEq s.prop s.initialValue
      · have h1 : (_handleValueFinishChanged p s).1 =
            { s with initialValue := s.prop,
                     displayed := _getFinalValueString s.precision s.prop } := by
          simp [_handleValueFinishChanged, h]
        rw [h1]
        have h2 : jsEq s.prop s.prop = true := by
          rw [hprop]
          exact jsEq_num_refl m e
        simp [_handleValueFinishChanged, h2]
      · have h1 : (_handleValueFinishChanged p s).1 = s := by
          simp [_handleValueFinishChanged, h]
        rw [h1]
        simp [_handleValueFinishChanged, h]
    · unfold _handleEnterKeyPressed _handleInputBlurred
      cases h : jsEq s.prop s.initialValue
      · have hppre : ({ s with isFocused := false } : NState).prop = s.prop := rfl
        have h0 : jsEq ({ s with isFocused := false } : NState).prop
            ({ s with isFocused := false } : NState).initialValue = false := h
        have h2 : jsEq s.prop s.prop = true := by
          rw [hprop]
          exact jsEq_num_refl m e
        simp [_handleValueFinishChanged, h0, h2, isFinishEvent]
        cases p.hasOnFinishChange <;> simp [isFinishEvent]
      · have h0 : jsEq ({ s with isFocused := false } : NState).prop
            ({ s with isFocused := false } : NState).initialValue = true := h
        simp [_handleValueFinishChanged, h0]

end InspectorNumber

/-- C1 witness: the no-op, firing, and repeated-commit cases of
`InspectorNumber.C1_finish_transaction` at concrete inputs. -/
theorem C1_finish_transaction_witness :
    InspectorNumber._handleValueFinishChanged ⟨1, 0, none, none, none, none, true, true⟩
        ⟨JSVal.num 5 0, "5", JSVal.num 5 0, 0, JSVal.num 1 0, false, JSVal.num 0 0, false, false⟩ =
      (⟨JSVal.num 5 0, "5", JSVal.num 5 0, 0, JSVal.num 1 0, false, JSVal.num 0 0, false, false⟩,
        []) ∧
    (InspectorNumber._handleValueFinishChanged ⟨1, 0, none, none, none, none, true, true⟩
        ⟨JSVal.num 7 0, "7", JSVal.num 5 0, 0, JSVal.num 1 0, false, JSVal.num 0 0, false,
          false⟩).1.initialValue = JSVal.num 7 0 ∧
    ((InspectorNumber._handleEnterKeyPressed ⟨1, 0, none, none, none, none, true, true⟩
        ⟨JSVal.num 7 0, "7", JSVal.num 5 0, 0, JSVal.num 1 0, false, JSVal.num 0 0, false,
          false⟩).2.filter isFinishEvent).length ≤ 1 := by
  refine ⟨?_, ?_, ?_⟩
  · exact (InspectorNumber.C1_finish_transaction _ _).1 (by decide)
  · exact ((InspectorNumber.C1_finish_transaction _ _).2.1 (by decide)).2
  · exact ((InspectorNumber.C1_finish_transaction _ _).2.2 7 0 (by decide)).2

namespace InspectorNumber

/-! Claim C7: behaviour of `_handleValueChanged` on empty and on unparseable
text. -/

/-- C7: evaluation of the value-change handler at the failing input `"-"`
(non-empty, unparseable — the first keystroke of any negative number).  The
code only early-returns on *empty* text; for `"-"` it runs
`parseFloat("-") = NaN` through the (ineffective on `NaN`) clamp, writes
`NaN` into `object[property]`, invokes `onChange(NaN)`, and emits a
`NotifyChange` — contradicting the claim that unparseable text causes no
mutation, no notification, and no callback.  Empty text, by contrast, only
keeps the empty display state, as claimed. -/
theorem C7_nan_written :
    _handleValueChanged ⟨1, 0, none, some (JSVal.num 0 0), some (JSVal.num 10 0), none, true, true⟩
        ⟨JSVal.num 5 0, "5", JSVal.num 5 0, 0, JSVal.num 1 0, true, JSVal.num 0 0, false, false⟩
        "-" false =
      (⟨JSVal.nan, "-", JSVal.num 5 0, 0, JSVal.num 1 0, true, JSVal.num 0 0, false, false⟩,
        [NEvent.onChange JSVal.nan, NEvent.notify (NTarget.prim JSVal.nan) 1]) ∧
    _handleValueChanged ⟨1, 0, none, some (JSVal.num 0 0), some (JSVal.num 10 0), none, true, true⟩
        ⟨JSVal.num 5 0, "5", JSVal.num 5 0, 0, JSVal.num 1 0, true, JSVal.num 0 0, false, false⟩
        "" false =
      (⟨JSVal.num 5 0, "", JSVal.num 5 0, 0, JSVal.num 1 0, true, JSVal.num 0 0, false, false⟩,
        []) := by
  exact ⟨by decide, by decide⟩

/-! Claim C9: guarded, idempotent teardown of the drag listeners. -/

/-- C9: `_handleMouseUp` removes the document `mousemove`/`mouseup`
listeners only when their references are present, nulls both references, and
then runs the finish-change step; hence a second invocation performs no
removal at all and is exactly the finish-change step (no listener removal to
throw on). -/
theorem C9_mouseup_teardown (p : NProps) (s : NState) :
    (_handleMouseUp p s).1.mouseMoveListener = false ∧
    (_handleMouseUp p s).1.mouseUpListener = false ∧
    (_handleMouseUp p s).2.filter isRemovalEvent =
      (if s.mouseMoveListener then [NEvent.removeMouseMove] else []) ++
        (if s.mouseUpListener then [NEvent.removeMouseUp] else []) ∧
    (_handleMouseUp p (_handleMouseUp p s).1).2.filter isRemovalEvent = [] ∧
    _handleMouseUp p (_handleMouseUp p s).1 =
      _handleValueFinishChanged p (_handleMouseUp p s).1 := by
  have hclear : ∀ t : NState, t.mouseMoveListener = false → t.mouseUpListener = false →
      ({ t with mouseMoveListener := false, mouseUpListener := false } : NState) = t := by
    intro t h1 h2
    cases t
    simp only at h1 h2
    rw [h1, h2]
  have hmm : (_handleMouseUp p s).1.mouseMoveListener = false := by
    unfold _handleMouseUp
    exact (finish_state_fields p _).2.2.1
  have hmu : (_handleMouseUp p s).1.mouseUpListener = false := by
    unfold _handleMouseUp
    exact (finish_state_fields p _).2.2.2
  have hgen : ∀ t : NState, t.mouseMoveListener = false → t.mouseUpListener = false →
      _handleMouseUp p t = _handleValueFinishChanged p t := by
    intro t h1 h2
    unfold _handleMouseUp
    rw [hclear t h1 h2]
    unfold removalEvents
    rw [h1, h2]
    simp
  have hsecond : _handleMouseUp p (_handleMouseUp p s).1 =
      _handleValueFinishChanged p (_handleMouseUp p s).1 :=
    hgen _ hmm hmu
  refine ⟨hmm, hmu, ?_, ?_, hsecond⟩
  · unfold _handleMouseUp
    rw [List.filter_append, finish_no_removals]
    unfold removalEvents
    cases s.mouseMoveListener <;> cases s.mouseUpListener <;>
      simp [isRemovalEvent]
  · rw [hsecond, finish_no_removals]

end InspectorNumber

namespace InspectorNumber

theorem getFinal_eq_displayRule (precision : ℕ) (v : JSVal) :
    _getFinalValueString precision v = displayRuleSpec precision v := by
  cases v <;> simp [_getFinalValueString, displayRuleSpec]

/-! Claim C5: the display-string rule and its three use sites. -/

/-- C5: the display-string rule of `_getFinalValueString` is exactly the
spec's rule — null/undefined displays `"0"`, a value with more decimals than
the controller's precision displays `toFixed(precision)`, anything else its
exact textual form — and it is the rule applied at activation (the
constructor's initial display), at commit (the finish-change refresh), and
at external-change refresh (the notifier callback). -/
theorem C5_display_rule (p : NProps) (s : NState) (precision : ℕ) (v : JSVal) :
    _getFinalValueString precision v = displayRuleSpec precision v ∧
    (∀ ov : JSVal, ∀ st : NState, construct p ov = Except.ok st →
      st.displayed = displayRuleSpec st.precision st.prop) ∧
    (_notifierRefresh s).displayed = displayRuleSpec s.precision s.prop ∧
    (jsEq s.prop s.initialValue = false →
      (_handleValueFinishChanged p s).1.displayed = displayRuleSpec s.precision s.prop) := by
  refine ⟨getFinal_eq_displayRule precision v, ?_, ?_, ?_⟩
  · intro ov st hc
    obtain ⟨h1, h2, h3, h4⟩ := construct_ok_fields p ov st hc
    rw [h3]
    exact getFinal_eq_displayRule st.precision st.prop
  · unfold _notifierRefresh
    exact getFinal_eq_displayRule s.precision s.prop
  · intro h
    simp only [_handleValueFinishChanged, h, Bool.false_eq_true, if_false]
    exact getFinal_eq_displayRule s.precision s.prop

/-! Claim C6: displayed string right after a value change. -/

/-- C6: for non-empty parseable input, the value-change handler displays the
raw typed text when the change did not come from a gesture, and the
precision-rounded clamped value when it came from a slider or drag gesture
(`fromMouseEvent = true`). -/
theorem C6_display_after_change (p : NProps) (s : NState) (str : String) (m : ℤ) (e : ℕ)
    (hv : jsParseFloat str = JSVal.num m e) :
    ∀ b : Bool, (_handleValueChanged p s str b).1.displayed =
      if b then jsToString (_RoundToDecimal (clampMinMax p (JSVal.num m e)) s.precision)
      else str := by
  intro b
  have hne : ¬ str = "" := parse_num_ne_empty hv
  simp [_handleValueChanged, hne, hv]

/-! Claim C8: display rounding never mutates the stored value. -/

/-- C8: on a gesture-originated change the value stored in
`object[property]` is the clamped parsed value itself while only the
displayed string goes through `_RoundToDecimal`; and neither the
external-change refresh nor the commit-step display refresh modifies the
stored property. -/
theorem C8_round_not_destructive (p : NProps) (s : NState) (str : String) (m : ℤ) (e : ℕ)
    (hv : jsParseFloat str = JSVal.num m e) :
    (_handleValueChanged p s str true).1.prop = clampMinMax p (JSVal.num m e) ∧
    (_handleValueChanged p s str true).1.displayed =
      jsToString (_RoundToDecimal (clampMinMax p (JSVal.num m e)) s.precision) ∧
    (_notifierRefresh s).prop = s.prop ∧
    (_handleValueFinishChanged p s).1.prop = s.prop := by
  have hne : ¬ str = "" := parse_num_ne_empty hv
  refine ⟨?_, ?_, rfl, (finish_state_fields p s).1⟩
  · simp [_handleValueChanged, hne, hv]
  · simp [_handleValueChanged, hne, hv]

end InspectorNumber

/-- C5 witness: the commit-step display refresh follows the spec's display
rule at a concrete state (value `7`, baseline `5`, precision `0`). -/
theorem C5_display_rule_witness :
    (InspectorNumber._handleValueFinishChanged ⟨1, 0, none, none, none, none, false, false⟩
        ⟨JSVal.num 7 0, "7", JSVal.num 5 0, 0, JSVal.num 1 0, false, JSVal.num 0 0, false,
          false⟩).1.displayed =
      displayRuleSpec 0 (JSVal.num 7 0) := by
  exact (InspectorNumber.C5_display_rule ⟨1, 0, none, none, none, none, false, false⟩
    ⟨JSVal.num 7 0, "7", JSVal.num 5 0, 0, JSVal.num 1 0, false, JSVal.num 0 0, false, false⟩
    0 (JSVal.num 7 0)).2.2.2 (by decide)

/-- C6 witness: typing `"2.7"` on a precision-0 controller displays `"2.7"`
itself, while the same input through a gesture displays the rounded `"3"`. -/
theorem C6_display_after_change_witness :
    (InspectorNumber._handleValueChanged
        ⟨1, 0, none, some (JSVal.num 0 0), some (JSVal.num 10 0), none, true, true⟩
        ⟨JSVal.num 5 0, "5", JSVal.num 5 0, 0, JSVal.num 1 0, true, JSVal.num 0 0, false, false⟩
        "2.7" true).1.displayed =
      jsToString (InspectorNumber._RoundToDecimal
        (InspectorNumber.clampMinMax
          ⟨1, 0, none, some (JSVal.num 0 0), some (JSVal.num 10 0), none, true, true⟩
          (JSVal.num 27 1)) 0) ∧
    (InspectorNumber._handleValueChanged
        ⟨1, 0, none, some (JSVal.num 0 0), some (JSVal.num 10 0), none, true, true⟩
        ⟨JSVal.num 5 0, "5", JSVal.num 5 0, 0, JSVal.num 1 0, true, JSVal.num 0 0, false, false⟩
        "2.7" false).1.displayed = "2.7" := by
  have h := InspectorNumber.C6_display_after_change
    ⟨1, 0, none, some (JSVal.num 0 0), some (JSVal.num 10 0), none, true, true⟩
    ⟨JSVal.num 5 0, "5", JSVal.num 5 0, 0, JSVal.num 1 0, true, JSVal.num 0 0, false, false⟩
    "2.7" 27 1 (by decide)
  exact ⟨h true, h false⟩

/-- C8 witness: gesture input `"2.7"` stores the exact clamped value `2.7`
while displaying the rounded string, and the refresh paths keep the stored
value intact, at a concrete state. -/
theorem C8_round_not_destructive_witness :
    (InspectorNumber._handleValueChanged
        ⟨1, 0, none, some (JSVal.num 0 0), some (JSVal.num 10 0), none, true, true⟩
        ⟨JSVal.num 5 0, "5", JSVal.num 5 0, 0, JSVal.num 1 0, true, JSVal.num 0 0, false, false⟩
        "2.7" true).1.prop =
      InspectorNumber.clampMinMax
        ⟨1, 0, none, some (JSVal.num 0 0), some (JSVal.num 10 0), none, true, true⟩
        (JSVal.num 27 1) ∧
    (InspectorNumber._handleValueFinishChanged
        ⟨1, 0, none, some (JSVal.num 0 0), some (JSVal.num 10 0), none, true, true⟩
        ⟨JSVal.num 5 0, "5", JSVal.num 5 0, 0, JSVal.num 1 0, true, JSVal.num 0 0, false,
          false⟩).1.prop = JSVal.num 5 0 := by
  have h := InspectorNumber.C8_round_not_destructive
    ⟨1, 0, none, some (JSVal.num 0 0), some (JSVal.num 10 0), none, true, true⟩
    ⟨JSVal.num 5 0, "5", JSVal.num 5 0, 0, JSVal.num 1 0, true, JSVal.num 0 0, false, false⟩
    "2.7" 27 1 (by decide)
  exact ⟨h.1, h.2.2.2⟩

namespace InspectorNumber

theorem clampMinMax_q (p : NProps) (vm mm Mm : ℤ) (ve me Me : ℕ)
    (hmin : p.min = some (JSVal.num mm me)) (hmax : p.max = some (JSVal.num Mm Me)) :
    (clampMinMax p (JSVal.num vm ve)).q =
      clampQ ((vm : ℚ) / 10 ^ ve) ((mm : ℚ) / 10 ^ me) ((Mm : ℚ) / 10 ^ Me) := by
  unfold clampMinMax applyMin applyMax jsGt clampQ
  rw [hmin, hmax]
  cases h1 : jsLt (JSVal.num vm ve) (JSVal.num mm me)
  · have h1' : ¬ ((vm : ℚ) / 10 ^ ve < (mm : ℚ) / 10 ^ me) := by
      rw [← jsLt_num_iff vm mm ve me, h1]
      simp
    cases h2 : jsLt (JSVal.num Mm Me) (JSVal.num vm ve)
    · have h2' : ¬ ((Mm : ℚ) / 10 ^ Me < (vm : ℚ) / 10 ^ ve) := by
        rw [← jsLt_num_iff Mm vm Me ve, h2]
        simp
      rw [max_eq_left (le_of_not_lt h1'), min_eq_left (le_of_not_lt h2')]
      simp [h1, h2, JSVal.q]
    · have h2' : (Mm : ℚ) / 10 ^ Me < (vm : ℚ) / 10 ^ ve :=
        (jsLt_num_iff Mm vm Me ve).1 h2
      rw [max_eq_left (le_of_not_lt h1'), min_eq_right (le_of_lt h2')]
      simp [h1, h2, JSVal.q]
  · have h1' : (vm : ℚ) / 10 ^ ve < (mm : ℚ) / 10 ^ me :=
      (jsLt_num_iff vm mm ve me).1 h1
    cases h2 : jsLt (JSVal.num Mm Me) (JSVal.num mm me)
    · have h2' : ¬ ((Mm : ℚ) / 10 ^ Me < (mm : ℚ) / 10 ^ me) := by
        rw [← jsLt_num_iff Mm mm Me me, h2]
        simp
      rw [max_eq_right (le_of_lt h1'), min_eq_left (le_of_not_lt h2')]
      simp [h1, h2, JSVal.q]
    · have h2' : (Mm : ℚ) / 10 ^ Me < (mm : ℚ) / 10 ^ me :=
        (jsLt_num_iff Mm mm Me me).1 h2
      rw [max_eq_right (le_of_lt h1'), min_eq_right (le_of_lt h2')]
      simp [h1, h2, JSVal.q]

/-! Claim C2: clamping of every written value. -/

/-- C2: for every non-empty parseable typed value and configured numeric
bounds `min = m`, `max = M`, the value written to `object[property]` has the
rational value `clamp(v, m, M) = min (max v m) M`, for either origin flag
(keyboard typing or slider/drag gesture); the optional `onChange` callback
receives exactly the stored (clamped) value; and the slider handler is the
gesture-flagged value-change handler applied to the slider value's textual
form, so a slider tick goes through the very same clamp. -/
theorem C2_clamped_write (p : NProps) (s : NState) (str : String)
    (vm mm Mm : ℤ) (ve me Me : ℕ)
    (hv : jsParseFloat str = JSVal.num vm ve)
    (hmin : p.min = some (JSVal.num mm me))
    (hmax : p.max = some (JSVal.num Mm Me)) :
    (∀ b : Bool,
      ((_handleValueChanged p s str b).1.prop).q =
        clampQ ((vm : ℚ) / 10 ^ ve) ((mm : ℚ) / 10 ^ me) ((Mm : ℚ) / 10 ^ Me) ∧
      (_handleValueChanged p s str b).2.filter isOnChangeEvent =
        (if p.hasOnChange then [NEvent.onChange ((_handleValueChanged p s str b).1.prop)]
          else [])) ∧
    (∀ v : JSVal, _handleSliderChanged p s v = _handleValueChanged p s (jsToString v) true) := by
  have hne : ¬ str = "" := parse_num_ne_empty hv
  refine ⟨?_, fun v => rfl⟩
  intro b
  constructor
  · have hp : (_handleValueChanged p s str b).1.prop = clampMinMax p (JSVal.num vm ve) := by
      simp [_handleValueChanged, hne, hv]
    rw [hp]
    exact clampMinMax_q p vm mm Mm ve me Me hmin hmax
  · cases h : p.hasOnChange <;>
      simp [_handleValueChanged, hne, hv, h, isOnChangeEvent]

end InspectorNumber

/-- C2 witness: typing `"15"` into a field with bounds `[0, 10]` writes a
value equal to `clamp(15, 0, 10) = 10` for both origins, and `onChange`
receives the stored value. -/
theorem C2_clamped_write_witness :
    ((InspectorNumber._handleValueChanged
        ⟨1, 0, none, some (JSVal.num 0 0), some (JSVal.num 10 0), none, true, true⟩
        ⟨JSVal.num 5 0, "5", JSVal.num 5 0, 0, JSVal.num 1 0, true, JSVal.num 0 0, false, false⟩
        "15" false).1.prop).q =
      clampQ ((15 : ℚ) / 10 ^ (0 : ℕ)) ((0 : ℚ) / 10 ^ (0 : ℕ)) ((10 : ℚ) / 10 ^ (0 : ℕ)) ∧
    ((InspectorNumber._handleValueChanged
        ⟨1, 0, none, some (JSVal.num 0 0), some (JSVal.num 10 0), none, true, true⟩
        ⟨JSVal.num 5 0, "5", JSVal.num 5 0, 0, JSVal.num 1 0, true, JSVal.num 0 0, false, false⟩
        "15" true).1.prop).q =
      clampQ ((15 : ℚ) / 10 ^ (0 : ℕ)) ((0 : ℚ) / 10 ^ (0 : ℕ)) ((10 : ℚ) / 10 ^ (0 : ℕ)) := by
  have h := InspectorNumber.C2_clamped_write
    ⟨1, 0, none, some (JSVal.num 0 0), some (JSVal.num 10 0), none, true, true⟩
    ⟨JSVal.num 5 0, "5", JSVal.num 5 0, 0, JSVal.num 1 0, true, JSVal.num 0 0, false, false⟩
    "15" 15 0 10 0 0 0 (by decide) rfl rfl
  exact ⟨(h.1 false).1, (h.1 true).1⟩

theorem notifyDelivers_prim_empty (regs : List Registration) (v : JSVal) (c : ℕ)
    (h : ∀ r ∈ regs, ∃ o : ℕ, r.target = NTarget.object o) :
    notifyDelivers regs (NTarget.prim v) c = [] := by
  induction regs with
  | nil => rfl
  | cons r rs ih =>
    obtain ⟨o, ho⟩ := h r (List.mem_cons_self r rs)
    have hrest : ∀ r' ∈ rs, ∃ o : ℕ, r'.target = NTarget.object o :=
      fun r' hr' => h r' (List.mem_cons_of_mem r hr')
    have htail := ih hrest
    unfold notifyDelivers at htail ⊢
    rw [List.filter_cons, ho]
    simpa [targetMatches] using htail

theorem notifyDelivers_object_mem (regs : List Registration) (r : Registration) (c o : ℕ)
    (hr : r ∈ regs) (ht : r.target = NTarget.object o) (hs : r.subscriber ≠ c) :
    r.subscriber ∈ notifyDelivers regs (NTarget.object o) c := by
  unfold notifyDelivers
  refine List.mem_map.2 ⟨r, ?_, rfl⟩
  refine List.mem_filter.2 ⟨hr, ?_⟩
  rw [ht]
  simp [targetMatches, hs]

namespace InspectorNumber

/-! Claim C3: target and caller of the per-change notifier emission. -/

/-- C3 counterexample: a typed-input change does *not* emit a notifier
change targeting the observed object.  Controller `1` is bound to object `0`
and both it and another observer `2` are registered for object `0`; typing
`"5"` emits exactly one notify whose target is the primitive value `5`
(`this.props.object[this.props.property]`), which is not the observed
object, and the spec-modelled dispatch delivers that emission to no observer
registered for the object — observer `2` does not re-read. -/
theorem C3_counterexample :
    (InspectorNumber._handleValueChanged ⟨1, 0, none, none, none, none, false, false⟩
        ⟨JSVal.num 0 0, "0", JSVal.num 0 0, 0, JSVal.num 1 0, true, JSVal.num 0 0, false, false⟩
        "5" false).2 =
      [NEvent.notify (NTarget.prim (JSVal.num 5 0)) 1] ∧
    NTarget.prim (JSVal.num 5 0) ≠ NTarget.object 0 ∧
    notifyDelivers [⟨1, NTarget.object 0⟩, ⟨2, NTarget.object 0⟩]
      (NTarget.prim (JSVal.num 5 0)) 1 = [] := by
  exact ⟨by decide, by decide, by decide⟩

/-- C3 amended: every non-empty value change emits exactly one notifier
change, tagged with the controller itself as caller, but targeting the
primitive property value just written (`object[property]`), not the observed
object — so observers registered for the object receive nothing from the
per-change emission.  Only the commit step's emission targets the observed
object, and there the spec-modelled dispatch delivers to every observer of
the object other than the caller. -/
theorem C3_notify_target (p : NProps) (s : NState) (str : String) (hne : ¬ str = "") :
    (∀ b : Bool,
      (_handleValueChanged p s str b).2.filter isNotifyEvent =
        [NEvent.notify (NTarget.prim ((_handleValueChanged p s str b).1.prop)) p.selfId]) ∧
    (∀ regs : List Registration, ∀ v : JSVal, ∀ c : ℕ,
      (∀ r ∈ regs, ∃ o : ℕ, r.target = NTarget.object o) →
      notifyDelivers regs (NTarget.prim v) c = []) ∧
    (jsEq s.prop s.initialValue = false →
      (_handleValueFinishChanged p s).2.filter isNotifyEvent =
        [NEvent.notify (NTarget.object p.objectId) p.selfId]) ∧
    (∀ regs : List Registration, ∀ r : Registration, ∀ c : ℕ,
      r ∈ regs → r.target = NTarget.object p.objectId → r.subscriber ≠ c →
      r.subscriber ∈ notifyDelivers regs (NTarget.object p.objectId) c) := by
  refine ⟨?_, fun regs v c h => notifyDelivers_prim_empty regs v c h, ?_,
    fun regs r c hr ht hs => notifyDelivers_object_mem regs r c p.objectId hr ht hs⟩
  · intro b
    cases h : p.hasOnChange <;>
      simp [_handleValueChanged, hne, h, isNotifyEvent]
  · intro h
    cases hf : p.hasOnFinishChange <;>
      simp [_handleValueFinishChanged, h, hf, isNotifyEvent]

end InspectorNumber

/-- C3 witness: at concrete inputs — typing `"5"` emits one notify with
caller `1` and the primitive target; a registry holding only object
registrations receives nothing from a primitive-targeted emission; the
commit emission targets object `0` and is delivered to the other observer
`2`. -/
theorem C3_notify_target_witness :
    (InspectorNumber._handleValueChanged ⟨1, 0, none, none, none, none, false, false⟩
        ⟨JSVal.num 0 0, "0", JSVal.num 0 0, 0, JSVal.num 1 0, true, JSVal.num 0 0, false, false⟩
        "5" false).2.filter isNotifyEvent =
      [NEvent.notify (NTarget.prim ((InspectorNumber._handleValueChanged
        ⟨1, 0, none, none, none, none, false, false⟩
        ⟨JSVal.num 0 0, "0", JSVal.num 0 0, 0, JSVal.num 1 0, true, JSVal.num 0 0, false, false⟩
        "5" false).1.prop)) 1] ∧
    notifyDelivers [⟨2, NTarget.object 0⟩] (NTarget.prim (JSVal.num 5 0)) 1 = [] ∧
    (2 : ℕ) ∈ notifyDelivers [⟨1, NTarget.object 0⟩, ⟨2, NTarget.object 0⟩]
      (NTarget.object 0) 1 := by
  have h := InspectorNumber.C3_notify_target ⟨1, 0, none, none, none, none, false, false⟩
    ⟨JSVal.num 0 0, "0", JSVal.num 0 0, 0, JSVal.num 1 0, true, JSVal.num 0 0, false, false⟩
    "5" (by decide)
  refine ⟨h.1 false, ?_, ?_⟩
  · exact h.2.1 [⟨2, NTarget.object 0⟩] (JSVal.num 5 0) 1
      (by intro r hr; simp at hr; exact ⟨0, by rw [hr]⟩)
  · exact h.2.2.2 [⟨1, NTarget.object 0⟩, ⟨2, NTarget.object 0⟩] ⟨2, NTarget.object 0⟩ 1
      (by simp) rfl (by decide)

namespace InspectorNumber

theorem digitsLenAux_bracket :
    ∀ f n : ℕ, 0 < n → n < 10 ^ f →
      10 ^ (digitsLenAux f n - 1) ≤ n ∧ n < 10 ^ digitsLenAux f n := by
  intro f
  induction f with
  | zero =>
    intro n h1 h2
    simp at h2
    omega
  | succ f ih =>
    intro n h1 h2
    by_cases h10 : n < 10
    · have hd : digitsLenAux (f + 1) n = 1 := by simp [digitsLenAux, h10]
      rw [hd]
      constructor
      · simpa using h1
      · simpa using h10
    · have hq1 : 0 < n / 10 := Nat.div_pos (le_of_not_lt h10) (by norm_num)
      have hq2 : n / 10 < 10 ^ f := by
        rw [Nat.div_lt_iff_lt_mul (by norm_num : (0:ℕ) < 10)]
        calc n < 10 ^ (f + 1) := h2
        _ = 10 ^ f * 10 := by ring
      obtain ⟨ha, hb⟩ := ih (n / 10) hq1 hq2
      have hd : digitsLenAux (f + 1) n = digitsLenAux f (n / 10) + 1 := by
        simp [digitsLenAux, h10]
      rw [hd]
      have hd1 : 1 ≤ digitsLenAux f (n / 10) := by
        by_contra hlt
        have h0 : digitsLenAux f (n / 10) = 0 := by omega
        rw [h0] at hb
        simp at hb
        omega
      constructor
      · have step1 : 10 ^ digitsLenAux f (n / 10) =
            10 ^ (digitsLenAux f (n / 10) - 1) * 10 := by
          rw [← pow_succ]
          congr 1
          omega
        have step2 : 10 ^ (digitsLenAux f (n / 10) - 1) * 10 ≤ (n / 10) * 10 :=
          Nat.mul_le_mul_right 10 ha
        have step3 : (n / 10) * 10 ≤ n := by
          have := Nat.div_mul_le_self n 10
          omega
        have step4 : 10 ^ digitsLenAux f (n / 10) ≤ n := by
          rw [step1]
          exact le_trans step2 step3
        simpa using step4
      · have hdm := Nat.div_add_mod n 10
        have hmod : n % 10 < 10 := Nat.mod_lt n (by norm_num)
        have hb' : n / 10 + 1 ≤ 10 ^ digitsLenAux f (n / 10) := hb
        calc n = 10 * (n / 10) + n % 10 := hdm.symm
        _ < 10 * (n / 10 + 1) := by omega
        _ ≤ 10 * 10 ^ digitsLenAux f (n / 10) := by
            exact Nat.mul_le_mul_left 10 hb'
        _ = 10 ^ (digitsLenAux f (n / 10) + 1) := by ring

theorem digitsLen_bracket (n : ℕ) (h : 0 < n) :
    10 ^ (digitsLen n - 1) ≤ n ∧ n < 10 ^ digitsLen n := by
  have hfuel : n < 10 ^ (n + 1) := by
    have h1 : n < 10 ^ n := Nat.lt_pow_self (by norm_num) n
    have h2 : 10 ^ n ≤ 10 ^ (n + 1) := Nat.pow_le_pow_right (by norm_num) (by omega)
    omega
  exact digitsLenAux_bracket (n + 1) n h hfuel

theorem digitsLen_pos (n : ℕ) : 1 ≤ digitsLen n := by
  unfold digitsLen digitsLenAux
  by_cases h : n < 10
  · simp [h]
  · simp [h]

end InspectorNumber

namespace InspectorNumber

theorem pow10Z_div10_q (k : ℤ) :
    (jsDivPow10 (pow10Z k) 1).q = (10 : ℚ) ^ k / 10 := by
  rcases le_or_lt 0 k with hk | hk
  · rw [pow10Z, if_pos hk]
    simp only [jsDivPow10, JSVal.q]
    have hcast : ((10 : ℚ) ^ k) = (10 : ℚ) ^ k.natAbs := by
      rw [← zpow_natCast]
      congr 1
      omega
    rw [hcast]
    push_cast
    norm_num
  · rw [pow10Z, if_neg (not_le.2 hk)]
    simp only [jsDivPow10, JSVal.q]
    have hcast : ((10 : ℚ) ^ k) = ((10 : ℚ) ^ k.natAbs)⁻¹ := by
      rw [← zpow_natCast, ← zpow_neg]
      congr 1
      omega
    rw [hcast, pow_succ]
    rw [Int.cast_one]
    field_simp

theorem impliedStepFromValue_zero (v : JSVal) (hz : jsEq v (JSVal.num 0 0) = true) :
    impliedStepFromValue v = JSVal.num 1 0 := by
  unfold impliedStepFromValue
  rw [hz]
  simp

theorem impliedStepFromValue_num (m : ℤ) (e : ℕ)
    (hz : jsEq (JSVal.num m e) (JSVal.num 0 0) = false) :
    impliedStepFromValue (JSVal.num m e) = jsDivPow10 (pow10Z (intLog10 m e)) 1 := by
  unfold impliedStepFromValue
  rw [hz]
  simp

/-! Claim C4: the implied step and precision computed at construction. -/

/-- C4 counterexample: an explicitly provided step of `0` is *not* used as
the implied step.  `if (props.step)` is a truthiness test, so `step: 0` is
treated as absent: constructing over initial value `5` with `step: 0` yields
implied step `0.1` (`10 ^ floor(log10 5) / 10`), not the provided `0`. -/
theorem C4_counterexample :
    ((construct ⟨1, 0, some (JSVal.num 0 0), none, none, none, false, false⟩
        (JSVal.num 5 0)).toOption.map
      (fun st => (st.impliedStep, jsEq st.impliedStep (JSVal.num 0 0)))) =
      some (JSVal.num 1 1, false) := by
  decide

/-- C4 amended: with a *truthy* explicit step (nonzero, non-`NaN`),
`impliedStep` equals it; otherwise (step absent, `0`, or `NaN`)
`impliedStep` is `1` when the initial value is `0` and
`10 ^ floor(log10 |value|) / 10` for a nonzero initial value — where
`intLog10` really is that floor: `10 ^ intLog10 ≤ |value| < 10 ^ (intLog10 +
1)`; and `precision` is the decimal-count of the implied step. -/
theorem C4_implied_step (p : NProps) (v : JSVal) (st : NState)
    (hc : construct p v = Except.ok st) :
    (∀ stp : JSVal, p.step = some stp → jsTruthy stp = true → st.impliedStep = stp) ∧
    ((p.step = none ∨ ∃ stp, p.step = some stp ∧ jsTruthy stp = false) →
      (jsEq st.prop (JSVal.num 0 0) = true → st.impliedStep = JSVal.num 1 0) ∧
      (∀ m : ℤ, ∀ e : ℕ, st.prop = JSVal.num m e → m ≠ 0 →
        st.impliedStep.q = (10 : ℚ) ^ intLog10 m e / 10 ∧
        (10 : ℚ) ^ intLog10 m e ≤ |(JSVal.num m e).q| ∧
        |(JSVal.num m e).q| < (10 : ℚ) ^ (intLog10 m e + 1))) ∧
    st.precision = _NumDecimals st.impliedStep := by
  obtain ⟨h1, h2, h3, h4⟩ := construct_ok_fields p v st hc
  refine ⟨?_, ?_, h1⟩
  · intro stp hs ht
    rw [h4, hs]
    simp [ht]
  · intro hcase
    have hbase : st.impliedStep = impliedStepFromValue st.prop := by
      rcases hcase with hnone | ⟨stp, hs, ht⟩
      · rw [h4, hnone]
      · rw [h4, hs]
        simp [ht]
    constructor
    · intro hz
      rw [hbase, impliedStepFromValue_zero st.prop hz]
    · intro m e hprop hm
      have hz : jsEq (JSVal.num m e) (JSVal.num 0 0) = false := by
        simp [jsEq, hm]
      have ha0 : 0 < m.natAbs := Int.natAbs_pos.2 hm
      obtain ⟨hlo, hhi⟩ := digitsLen_bracket m.natAbs ha0
      have hd1 : 1 ≤ digitsLen m.natAbs := digitsLen_pos m.natAbs
      have habs : |(JSVal.num m e).q| = (m.natAbs : ℚ) / 10 ^ e := by
        simp only [JSVal.q]
        rw [abs_div]
        rw [abs_of_pos (show (0:ℚ) < 10 ^ e from by positivity)]
        congr 1
        simp [Int.cast_natAbs, Int.cast_abs]
      refine ⟨?_, ?_, ?_⟩
      · rw [hbase, hprop, impliedStepFromValue_num m e hz]
        exact pow10Z_div10_q (intLog10 m e)
      · have hzz : (10 : ℚ) ^ intLog10 m e =
            (10 : ℚ) ^ (digitsLen m.natAbs - 1) / 10 ^ e := by
          rw [intLog10]
          rw [show ((digitsLen m.natAbs : ℤ) - 1) - (e : ℤ) =
            ((digitsLen m.natAbs - 1 : ℕ) : ℤ) - (e : ℤ) by push_cast [hd1]; omega]
          rw [zpow_sub₀ (by norm_num : (10:ℚ) ≠ 0), zpow_natCast, zpow_natCast]
        rw [habs, hzz]
        gcongr
        exact_mod_cast hlo
      · have hzz : (10 : ℚ) ^ (intLog10 m e + 1) =
            (10 : ℚ) ^ digitsLen m.natAbs / 10 ^ e := by
          rw [intLog10]
          rw [show ((digitsLen m.natAbs : ℤ) - 1) - (e : ℤ) + 1 =
            ((digitsLen m.natAbs : ℕ) : ℤ) - (e : ℤ) by omega]
          rw [zpow_sub₀ (by norm_num : (10:ℚ) ≠ 0), zpow_natCast, zpow_natCast]
        rw [habs, hzz]
        gcongr
        exact_mod_cast hhi

end InspectorNumber

/-- C4 witness: a truthy explicit step `2` is taken verbatim, and without a
step the construction over value `5` yields an implied step of rational
value `10 ^ intLog10(5) / 10` (that is, `0.1`). -/
theorem C4_implied_step_witness :
    ((InspectorNumber.construct ⟨1, 0, some (JSVal.num 2 0), none, none, none, false, false⟩
        (JSVal.num 5 0)).toOption.map (fun st => st.impliedStep)) = some (JSVal.num 2 0) ∧
    ((InspectorNumber.construct ⟨1, 0, none, none, none, none, false, false⟩
        (JSVal.num 5 0)).toOption.map (fun st => st.impliedStep.q)) =
      some ((10 : ℚ) ^ (InspectorNumber.intLog10 5 0) / 10) := by
  have hc1 : InspectorNumber.construct
      ⟨1, 0, some (JSVal.num 2 0), none, none, none, false, false⟩ (JSVal.num 5 0) =
      Except.ok ⟨JSVal.num 5 0, "5", JSVal.num 5 0, 0, JSVal.num 2 0, false,
        JSVal.num 0 0, false, false⟩ := by rfl
  have hc2 : InspectorNumber.construct
      ⟨1, 0, none, none, none, none, false, false⟩ (JSVal.num 5 0) =
      Except.ok ⟨JSVal.num 5 0, "5", JSVal.num 5 0, 1, JSVal.num 1 1, false,
        JSVal.num 0 0, false, false⟩ := by rfl
  have h1 := (InspectorNumber.C4_implied_step _ _ _ hc1).1 (JSVal.num 2 0) rfl (by decide)
  have h2 := (((InspectorNumber.C4_implied_step _ _ _ hc2).2.1 (Or.inl rfl)).2 5 0
    rfl (by decide)).1
  constructor
  · rw [hc1]
    exact congrArg some h1
  · rw [hc2]
    exact congrArg some h2

theorem indexOfChar_eq_none (c : Char) (l : List Char) (h : ∀ a ∈ l, a ≠ c) :
    indexOfChar c l = none := by
  induction l with
  | nil => rfl
  | cons a l ih =>
    have ha : a ≠ c := h a (List.mem_cons_self a l)
    rw [indexOfChar, if_neg ha,
      ih (fun a' ha' => h a' (List.mem_cons_of_mem a ha'))]
    rfl

theorem indexOfChar_lt_length (c : Char) :
    ∀ l : List Char, ∀ i : ℕ, indexOfChar c l = some i → i < l.length := by
  intro l
  induction l with
  | nil =>
    intro i h
    cases h
  | cons a l ih =>
    intro i h
    rw [indexOfChar] at h
    by_cases ha : a = c
    · rw [if_pos ha] at h
      injection h with h
      simp
      omega
    · rw [if_neg ha] at h
      cases hx : indexOfChar c l with
      | none =>
        rw [hx] at h
        cases h
      | some j =>
        rw [hx, Option.map_some'] at h
        injection h with h
        have hj := ih j hx
        simp
        omega

namespace InspectorNumber

/-! Claim C10: the decimal-count helper, characterized through the string
rendering. -/

/-- C10: `_NumDecimals` is fully characterized by the value's string
rendering — a rendering without `"."` (e.g. the exponential renderings
`"1e-7"` and `"1e+21"`) yields `0`, and otherwise the count of characters
after the first `"."` (so `1.5e-7` yields `4`, counting the exponent
characters); consequently a controller whose implied step stringifies
without a dot gets precision `0`, and its external refresh displays any
value with decimals through `toFixed(0)` — rounded to a whole number. -/
theorem C10_num_decimals :
    (∀ s : String, (∀ c ∈ s.toList, c ≠ '.') → numDecimalsOfString s = 0) ∧
    (∀ s : String, ∀ i : ℕ, indexOfChar '.' s.toList = some i →
      numDecimalsOfString s = (s.toList.drop (i + 1)).length) ∧
    (jsToString (JSVal.num 1 7) = "1e-7" ∧ _NumDecimals (JSVal.num 1 7) = 0) ∧
    (jsToString (JSVal.num (10 ^ 21) 0) = "1e+21" ∧
      _NumDecimals (JSVal.num (10 ^ 21) 0) = 0) ∧
    (jsToString (JSVal.num 15 8) = "1.5e-7" ∧ _NumDecimals (JSVal.num 15 8) = 4) ∧
    (∀ p : NProps, ∀ v : JSVal, ∀ st : NState, construct p v = Except.ok st →
      (∀ c ∈ (jsToString st.impliedStep).toList, c ≠ '.') → st.precision = 0) ∧
    (∀ v : JSVal, v ≠ JSVal.undef → 0 < _NumDecimals v →
      _getFinalValueString 0 v = jsToFixed v 0) := by
  have hnone : ∀ s : String, (∀ c ∈ s.toList, c ≠ '.') → numDecimalsOfString s = 0 := by
    intro s h
    unfold numDecimalsOfString
    rw [indexOfChar_eq_none '.' s.toList h]
  refine ⟨hnone, ?_, ⟨by decide, by decide⟩, ⟨by decide, by decide⟩,
    ⟨by decide, by decide⟩, ?_, ?_⟩
  · intro s i h
    have hi := indexOfChar_lt_length '.' s.toList i h
    unfold numDecimalsOfString
    rw [h]
    show s.length - i - 1 = (s.toList.drop (i + 1)).length
    rw [List.length_drop]
    have hl : s.length = s.toList.length := rfl
    omega
  · intro p v st hc h
    obtain ⟨h1, h2, h3, h4⟩ := construct_ok_fields p v st hc
    rw [h1]
    unfold _NumDecimals
    exact hnone (jsToString st.impliedStep) h
  · intro v hv hd
    cases v with
    | undef => exact absurd rfl hv
    | nan => simp [_getFinalValueString, hd]
    | num m e => simp [_getFinalValueString, hd]

end InspectorNumber

/-- C10 witness: the no-dot rule at `"NaN"`, the count-after-dot rule at
`"0.15"`, the precision-0 consequence for a controller with truthy step `3`
(rendered `"3"`, no dot), and the whole-number external display of `1.5`
under precision `0`. -/
theorem C10_num_decimals_witness :
    numDecimalsOfString "NaN" = 0 ∧
    numDecimalsOfString "0.15" = (("0.15" : String).toList.drop 2).length ∧
    ((InspectorNumber.construct ⟨1, 0, some (JSVal.num 3 0), none, none, none, false, false⟩
        (JSVal.num 5 0)).toOption.map (fun st => st.precision)) = some 0 ∧
    InspectorNumber._getFinalValueString 0 (JSVal.num 15 1) = jsToFixed (JSVal.num 15 1) 0 := by
  have h := InspectorNumber.C10_num_decimals
  have hc : InspectorNumber.construct
      ⟨1, 0, some (JSVal.num 3 0), none, none, none, false, false⟩ (JSVal.num 5 0) =
      Except.ok ⟨JSVal.num 5 0, "5", JSVal.num 5 0, 0, JSVal.num 3 0, false,
        JSVal.num 0 0, false, false⟩ := by rfl
  refine ⟨h.1 "NaN" (by decide), ?_, ?_, ?_⟩
  · exact h.2.1 "0.15" 1 (by decide)
  · rw [hc]
    exact congrArg some (h.2.2.2.2.2.1 _ _ _ hc (by decide))
  · exact h.2.2.2.2.2.2 (JSVal.num 15 1) (by decide) (by decide)
